import Mathlib

/-!
Shallow embedding of the `quicsock` crate (session/stream layer over QUIC).

The embedding follows the source files:
  * `src/connection.rs` — `QuicConnection`: stream-handle maps, counter,
    chunked `send` / `receive`;
  * `src/tls/certificate.rs` — `load_certs`;
  * `src/endpoint.rs` — client/server configuration builders and the
    `ALPN_QUIC_HTTP` constant;
  * `src/socket.rs` — `QuicSocket`: address→session table, `connect`,
    `accept`, `close_connection`.

External collaborators (the quinn transport engine, rustls, the PEM
parser) are modelled as explicit inputs: a transport call that may fail
becomes an `Except`-valued argument, a quinn stream object becomes a
record of the bytes/chunks that crossed it, and the PEM parser becomes
the list of per-section parse outcomes it would yield on the file's
content.  Rust's `HashMap` is modelled as an association list with
replace-on-insert semantics.
-/

deriving instance DecidableEq for Except

namespace QuicSock

/-- Socket addresses, abstracted to an identifier. -/
abbrev Addr := Nat

/-- Transport-level errors (quinn errors), abstracted to a code. -/
abbrev TransportError := Nat

/-- A raw `quinn::Connection`: identity plus the peer's remote address
(`remote_address()`). -/
structure RawConn where
  connId : Nat
  remoteAddr : Addr
deriving DecidableEq

/-- A `quinn::SendStream`, modelled by the chunks written on it so far and
the flush/finish signals; `broken` models a transport that fails the
write path (`write_chunk`/`flush`/`finish` return `Err`). -/
structure SendStream where
  written : List (List Nat)
  flushed : Bool
  finished : Bool
  broken : Bool
deriving DecidableEq

/-- A `quinn::RecvStream`, modelled by the bytes the peer has sent and
finished with (still pending to be read); `broken` models a transport
whose `read_chunk` fails. -/
structure RecvStream where
  pending : List Nat
  broken : Bool
deriving DecidableEq

/-- `HashMap` lookup (`HashMap::get`) on the association-list model. -/
def mapLookup {β : Type} (m : List (Nat × β)) (k : Nat) : Option β :=
  match m with
  | [] => none
  | (k', v) :: rest => if k' = k then some v else mapLookup rest k

/-- `HashMap::insert`: replaces any existing binding of the key. -/
def mapInsert {β : Type} (m : List (Nat × β)) (k : Nat) (v : β) : List (Nat × β) :=
  (k, v) :: m.filter (fun p => p.1 ≠ k)

/-- `HashMap::remove`: drops the binding of the key if present. -/
def mapRemove {β : Type} (m : List (Nat × β)) (k : Nat) : List (Nat × β) :=
  m.filter (fun p => p.1 ≠ k)

/-- The session object of `src/connection.rs` (`QuicConnection`): the raw
connection, the two handle-keyed stream maps and the shared counter. -/
structure QuicConnection where
  connection : RawConn
  sendStreams : List (Nat × SendStream)
  recvStreams : List (Nat × RecvStream)
  streamIdCounter : Nat
deriving DecidableEq

namespace QuicConnection

/-- `QuicConnection::new`: empty maps, counter 0. -/
def new (c : RawConn) : QuicConnection :=
  { connection := c, sendStreams := [], recvStreams := [], streamIdCounter := 0 }

/-- `open_bi_stream`: `self.connection.open_bi().await?` happens first —
its outcome is the `transport` argument, and an error there returns
before any lock is taken — then the counter is read and bumped and both
halves are inserted under the fresh handle. -/
def open_bi_stream (conn : QuicConnection)
    (transport : Except TransportError (SendStream × RecvStream)) :
    QuicConnection × Except TransportError Nat :=
  match transport with
  | .error e => (conn, .error e)
  | .ok (ss, rs) =>
    let streamId := conn.streamIdCounter
    ({ conn with
        sendStreams := mapInsert conn.sendStreams streamId ss,
        recvStreams := mapInsert conn.recvStreams streamId rs,
        streamIdCounter := streamId + 1 }, .ok streamId)

/-- `accept_bi_stream`: identical to `open_bi_stream` except that the
stream pair comes from `self.connection.accept_bi().await?`. -/
def accept_bi_stream (conn : QuicConnection)
    (transport : Except TransportError (SendStream × RecvStream)) :
    QuicConnection × Except TransportError Nat :=
  match transport with
  | .error e => (conn, .error e)
  | .ok (ss, rs) =>
    let streamId := conn.streamIdCounter
    ({ conn with
        sendStreams := mapInsert conn.sendStreams streamId ss,
        recvStreams := mapInsert conn.recvStreams streamId rs,
        streamIdCounter := streamId + 1 }, .ok streamId)

end QuicConnection

/-- The chunking loop of `QuicConnection::send`: starting at `offset`,
while `offset < data.len()` the slice `data[offset..min(offset+1024,
data.len())]` is written as one chunk.  Returns the chunks in write
order. -/
def sendLoop (data : List Nat) (offset : Nat) : List (List Nat) :=
  if offset < data.length then
    ((data.drop offset).take (min (offset + 1024) data.length - offset))
      :: sendLoop data (min (offset + 1024) data.length)
  else []
termination_by data.length - offset
decreasing_by
  rename_i h
  omega

/-- The chunks `send` writes for a payload (the loop started at offset 0). -/
def sendChunks (data : List Nat) : List (List Nat) :=
  sendLoop data 0

/-- The accumulation loop of `QuicConnection::receive`: `read_chunk(1024,
true)` yields the next at-most-1024 pending bytes while any remain, and
`None` once the finished stream is drained; each chunk is appended to
`buffer`. -/
def readAll (pending : List Nat) (buffer : List Nat) : List Nat :=
  if pending = [] then buffer
  else readAll (pending.drop 1024) (buffer ++ pending.take 1024)
termination_by pending.length
decreasing_by
  rename_i h
  have : pending.length ≠ 0 := fun e => h (List.eq_nil_of_length_eq_zero e)
  simp only [List.length_drop]
  omega

namespace QuicConnection

/-- `QuicConnection::send`: look up the send half; if the handle is
unknown, fall through to `Ok(())` touching nothing.  Otherwise write the
payload as successive 1024-byte chunks in order, then `flush`, `finish`
and wait for the peer (`stopped`, result ignored).  A `broken` stream
models the transport failing the write path. -/
def send (conn : QuicConnection) (streamId : Nat) (data : List Nat) :
    QuicConnection × Except TransportError Unit :=
  match mapLookup conn.sendStreams streamId with
  | none => (conn, .ok ())
  | some s =>
    if s.broken then (conn, .error 0)
    else
      ({ conn with
          sendStreams := mapInsert conn.sendStreams streamId
            { s with written := s.written ++ sendChunks data,
                     flushed := true, finished := true } }, .ok ())

/-- `QuicConnection::receive`: look up the receive half; if the handle is
unknown, return `Ok(Vec::new())` touching nothing.  Otherwise read
chunks of at most 1024 bytes into a buffer until the stream reports
end-of-data, and return the buffer; a `broken` stream models
`read_chunk` failing, which aborts with the error. -/
def receive (conn : QuicConnection) (streamId : Nat) :
    QuicConnection × Except TransportError (List Nat) :=
  match mapLookup conn.recvStreams streamId with
  | none => (conn, .ok [])
  | some r =>
    if r.broken then (conn, .error 0)
    else
      ({ conn with
          recvStreams := mapInsert conn.recvStreams streamId
            { r with pending := [] } }, .ok (readAll r.pending []))

end QuicConnection

/-- One stream-creation call on a session: an `open_bi_stream` or an
`accept_bi_stream`, together with the transport's outcome for the
underlying `open_bi()` / `accept_bi()` call. -/
inductive StreamOp where
  | openBi (transport : Except TransportError (SendStream × RecvStream))
  | acceptBi (transport : Except TransportError (SendStream × RecvStream))
deriving DecidableEq

/-- Run one stream-creation call. -/
def runOp (conn : QuicConnection) (op : StreamOp) :
    QuicConnection × Except TransportError Nat :=
  match op with
  | .openBi t => conn.open_bi_stream t
  | .acceptBi t => conn.accept_bi_stream t

/-- Run a sequence of stream-creation calls and collect the handles the
successful calls return, in call order.  The per-session locks make each
call's counter read/increment atomic, so any interleaving of concurrent
calls is some such sequence. -/
def runOps (conn : QuicConnection) : List StreamOp → QuicConnection × List Nat
  | [] => (conn, [])
  | op :: rest =>
    let step := runOp conn op
    let tail := runOps step.1 rest
    (tail.1, (match step.2 with | .ok h => [h] | .error _ => []) ++ tail.2)

/-- Whether a stream-creation call succeeds (its transport outcome is ok). -/
def opSucceeds : StreamOp → Bool
  | .openBi (.ok _) => true
  | .openBi (.error _) => false
  | .acceptBi (.ok _) => true
  | .acceptBi (.error _) => false

/-- The number of successful calls in a sequence. -/
def successCount (ops : List StreamOp) : Nat :=
  (ops.filter opSucceeds).length

/-! Certificate loading, `src/tls/certificate.rs`. -/

/-- Errors of `load_certs` (the `anyhow` contexts in the source). -/
inductive CertError where
  | readFailed
  | invalidPem
deriving DecidableEq

/-- A certificate file as `load_certs` sees it: the path's extension (if
any), the raw bytes read from disk, and — modelling the external
`rustls_pemfile::certs` iterator — the sequence of per-PEM-section parse
outcomes that iterator yields on those bytes (an empty list when the
content holds no PEM certificate section at all, e.g. an empty file). -/
structure CertFile where
  ext : Option String
  content : List Nat
  pemItems : List (Except Unit (List Nat))

/-- Rust's `collect::<Result<Vec<_>, _>>()` over the PEM-item iterator:
stops at the first erroneous item, otherwise gathers all items; an empty
iterator collects to `Ok` of the empty vector. -/
def collectCerts : List (Except Unit (List Nat)) → Except Unit (List (List Nat))
  | [] => .ok []
  | .error e :: _ => .error e
  | .ok c :: rest =>
    match collectCerts rest with
    | .ok cs => .ok (c :: cs)
    | .error e => .error e

/-- `load_certs`: if the file extension is `der`, the whole content is a
single raw certificate; otherwise the content is parsed as PEM
certificates, and any malformed section makes the whole load fail with
`invalid PEM-encoded certificate`. -/
def load_certs (f : CertFile) : Except CertError (List (List Nat)) :=
  if f.ext = some "der" then .ok [f.content]
  else
    match collectCerts f.pemItems with
    | .ok cs => .ok cs
    | .error _ => .error .invalidPem

/-! Endpoint configuration, `src/endpoint.rs`. -/

/-- One raw certificate handed to `configure_client`, with the verdict of
the external `rustls` parser (`RootCertStore::add` fails on a malformed
certificate). -/
structure CertInput where
  der : List Nat
  valid : Bool
deriving DecidableEq

/-- `quinn::TransportConfig`; quinn's default for
`max_concurrent_uni_streams` is 100. -/
structure TransportCfg where
  maxConcurrentUniStreams : Nat
deriving DecidableEq

def defaultTransportCfg : TransportCfg :=
  { maxConcurrentUniStreams := 100 }

/-- A quinn client configuration: the trust anchors, whether certificate
verification is skipped, and the advertised ALPN protocol list (rustls
defaults it to the empty list; nothing in `src/endpoint.rs` ever sets
it). -/
structure ClientConfig where
  rootCerts : List (List Nat)
  skipVerify : Bool
  alpnProtocols : List (List Nat)
deriving DecidableEq

/-- A quinn server configuration: certificate chain and key from
`with_single_cert`, the ALPN protocol list (rustls default: empty), and
the transport configuration. -/
structure ServerConfig where
  certChain : List (List Nat)
  keyDer : List Nat
  alpnProtocols : List (List Nat)
  transport : TransportCfg
deriving DecidableEq

/-- The constant `ALPN_QUIC_HTTP` of `src/endpoint.rs`: the single ALPN
identifier `b"hq-29"`. -/
def ALPN_QUIC_HTTP : List (List Nat) :=
  [[104, 113, 45, 50, 57]]

/-- `configure_client`: adds every given certificate to an initially
empty root store, failing if any fails to parse; the resulting quinn
`ClientConfig::with_root_certificates` keeps rustls defaults — no client
auth, no ALPN set. -/
def configure_client (serverCerts : List CertInput) : Except Unit ClientConfig :=
  if serverCerts.all (fun c => c.valid) then
    .ok { rootCerts := serverCerts.map (fun c => c.der),
          skipVerify := false, alpnProtocols := [] }
  else .error ()

/-- The client configuration built inline by `make_native_client_endpoint`
from the OS trust store (certificates that failed to load are already
skipped); rustls defaults — no ALPN set. -/
def native_client_config (nativeCerts : List (List Nat)) : ClientConfig :=
  { rootCerts := nativeCerts, skipVerify := false, alpnProtocols := [] }

/-- The client configuration built inline by
`make_insecure_client_endpoint`: the `SkipServerVerification` verifier,
no root store, rustls defaults — no ALPN set. -/
def insecure_client_config : ClientConfig :=
  { rootCerts := [], skipVerify := true, alpnProtocols := [] }

/-- `rustls`/`quinn` `ServerConfig::with_single_cert`: the given chain
and key, all other fields at their defaults (empty ALPN list, default
transport). -/
def with_single_cert (chain : List (List Nat)) (key : List Nat) : ServerConfig :=
  { certChain := chain, keyDer := key, alpnProtocols := [],
    transport := defaultTransportCfg }

/-- `configure_server`: the chain/key come from
`tls::load_or_generate_cert` (its outcome is the argument); on success
the config is built by `with_single_cert` and then
`max_concurrent_uni_streams(0)` is applied to its transport. -/
def configure_server (loaded : Except CertError (List (List Nat) × List Nat)) :
    Except CertError ServerConfig :=
  match loaded with
  | .error e => .error e
  | .ok (chain, key) =>
    let sc := with_single_cert chain key
    .ok { sc with transport := { sc.transport with maxConcurrentUniStreams := 0 } }

/-- `configure_self_signed_server`: the chain/key are the freshly
generated self-signed pair; `with_single_cert` then
`max_concurrent_uni_streams(0)`, exactly as `configure_server`. -/
def configure_self_signed_server (pair : List (List Nat) × List Nat) : ServerConfig :=
  let sc := with_single_cert pair.1 pair.2
  { sc with transport := { sc.transport with maxConcurrentUniStreams := 0 } }

/-! The socket facade, `src/socket.rs`. -/

/-- The facade state: the address→session table (`connections`), plus an
event log of the connection ids on which `QuicConnection::close` (i.e.
`Connection::close(0, b"done")`) has been invoked — recording the only
externally visible effect of closing. -/
structure QuicSocket where
  connections : List (Addr × QuicConnection)
  closedConns : List Nat
deriving DecidableEq

namespace QuicSocket

/-- `QuicSocket::connect`: the handshake
`self.endpoint.connect(server_addr, server_name)?.await?` is the
`outcome` argument; an error propagates with nothing registered.  On
success the connection is wrapped in a fresh `QuicConnection` and
inserted into the table keyed by `server_addr` (replacing any previous
entry, which is not closed). -/
def connect (sock : QuicSocket) (serverAddr : Addr)
    (outcome : Except TransportError RawConn) :
    QuicSocket × Except TransportError QuicConnection :=
  match outcome with
  | .error e => (sock, .error e)
  | .ok c =>
    let q := QuicConnection.new c
    ({ sock with connections := mapInsert sock.connections serverAddr q }, .ok q)

/-- `QuicSocket::accept`: `item` is what `incoming.recv().await` yields —
`none` when the queue is closed (the producer task ended), otherwise the
outcome of awaiting the popped handshake.  A closed queue or a failed
handshake both return `None` with the socket untouched; on success the
new session is registered keyed by the connection's
`remote_address()`. -/
def accept (sock : QuicSocket) (item : Option (Except TransportError RawConn)) :
    QuicSocket × Option QuicConnection :=
  match item with
  | none => (sock, none)
  | some (.error _) => (sock, none)
  | some (.ok c) =>
    let q := QuicConnection.new c
    ({ sock with connections := mapInsert sock.connections c.remoteAddr q }, some q)

/-- `QuicSocket::close_connection`: `connections.remove(addr)`; if an
entry was there, its connection is closed (logged in `closedConns`),
otherwise nothing happens. -/
def close_connection (sock : QuicSocket) (addr : Addr) : QuicSocket :=
  match mapLookup sock.connections addr with
  | some q =>
    { connections := mapRemove sock.connections addr,
      closedConns := q.connection.connId :: sock.closedConns }
  | none => sock

end QuicSocket

/-! Concrete sample values, used to instantiate the theorems below. -/

/-- A sample raw connection. -/
def sampleRawConn : RawConn :=
  { connId := 7, remoteAddr := 3 }

/-- A healthy send stream with nothing written yet. -/
def freshSendStream : SendStream :=
  { written := [], flushed := false, finished := false, broken := false }

/-- A healthy receive stream holding `pending` unread bytes. -/
def freshRecvStream (pending : List Nat) : RecvStream :=
  { pending := pending, broken := false }

/-- A session with a single open handle 0 whose send half is fresh and
whose receive half holds `pending`. -/
def sampleConn (pending : List Nat) : QuicConnection :=
  { connection := sampleRawConn,
    sendStreams := [(0, freshSendStream)],
    recvStreams := [(0, freshRecvStream pending)],
    streamIdCounter := 1 }

/-- A facade with a single registered session for address 3. -/
def sampleSocket : QuicSocket :=
  { connections := [(3, QuicConnection.new sampleRawConn)], closedConns := [] }

/-!
Helper lemmas about the association-list map and the two transfer loops.
-/

theorem mapLookup_insert_self {β : Type} (m : List (Nat × β)) (k : Nat) (v : β) :
    mapLookup (mapInsert m k v) k = some v := by
  simp [mapInsert, mapLookup]

theorem mapLookup_filter_ne {β : Type} (m : List (Nat × β)) (k a : Nat) (h : a ≠ k) :
    mapLookup (m.filter (fun p => p.1 ≠ k)) a = mapLookup m a := by
  induction m with
  | nil => rfl
  | cons p rest ih =>
    obtain ⟨k', v⟩ := p
    by_cases hk : k' = k
    · rw [List.filter_cons_of_neg (by simp [hk])]
      rw [ih]
      have hka : ¬ k' = a := fun e => h (e.symm.trans hk)
      simp [mapLookup, hka]
    · rw [List.filter_cons_of_pos (by simp [hk])]
      by_cases ha : k' = a
      · simp only [mapLookup]
        rw [if_pos ha, if_pos ha]
      · simp only [mapLookup]
        rw [if_neg ha, if_neg ha]
        exact ih

theorem mapLookup_insert_ne {β : Type} (m : List (Nat × β)) (k a : Nat) (v : β)
    (h : a ≠ k) : mapLookup (mapInsert m k v) a = mapLookup m a := by
  have step : mapLookup (mapInsert m k v) a
      = mapLookup (m.filter (fun p => p.1 ≠ k)) a := by
    simp [mapInsert, mapLookup, Ne.symm h]
  rw [step, mapLookup_filter_ne m k a h]

theorem mapLookup_remove_self {β : Type} (m : List (Nat × β)) (k : Nat) :
    mapLookup (mapRemove m k) k = none := by
  induction m with
  | nil => rfl
  | cons p rest ih =>
    obtain ⟨k', v⟩ := p
    by_cases hk : k' = k
    · rw [mapRemove, List.filter_cons_of_neg (by simp [hk])]
      exact ih
    · rw [mapRemove, List.filter_cons_of_pos (by simp [hk])]
      simp only [mapLookup]
      rw [if_neg hk]
      exact ih

theorem mapLookup_remove_ne {β : Type} (m : List (Nat × β)) (k a : Nat)
    (h : a ≠ k) : mapLookup (mapRemove m k) a = mapLookup m a :=
  mapLookup_filter_ne m k a h

theorem sendLoop_join (data : List Nat) (offset : Nat) :
    (sendLoop data offset).flatten = data.drop offset := by
  rw [sendLoop]
  by_cases h : offset < data.length
  · rw [if_pos h]
    simp only [List.flatten_cons]
    rw [sendLoop_join data (min (offset + 1024) data.length)]
    have hdrop : data.drop (min (offset + 1024) data.length)
        = (data.drop offset).drop (min (offset + 1024) data.length - offset) := by
      rw [List.drop_drop]
      congr 1
      omega
    rw [hdrop, List.take_append_drop]
  · rw [if_neg h]
    have hle : data.length ≤ offset := Nat.le_of_not_lt h
    simp [List.drop_eq_nil_of_le hle]
termination_by data.length - offset
decreasing_by omega

/-- Concatenating the chunks produced by `send` restores the payload. -/
theorem sendChunks_join (data : List Nat) : (sendChunks data).flatten = data := by
  rw [sendChunks, sendLoop_join, List.drop_zero]

theorem sendLoop_chunk_size (data : List Nat) (offset : Nat) :
    ∀ c ∈ sendLoop data offset, 0 < c.length ∧ c.length ≤ 1024 := by
  rw [sendLoop]
  by_cases h : offset < data.length
  · rw [if_pos h]
    intro c hc
    rcases List.mem_cons.mp hc with hc | hc
    · subst hc
      constructor
      · rw [List.length_take, List.length_drop]
        omega
      · rw [List.length_take, List.length_drop]
        omega
    · exact sendLoop_chunk_size data (min (offset + 1024) data.length) c hc
  · rw [if_neg h]
    intro c hc
    exact absurd hc (List.not_mem_nil c)
termination_by data.length - offset
decreasing_by omega

theorem readAll_eq (pending : List Nat) (buffer : List Nat) :
    readAll pending buffer = buffer ++ pending := by
  rw [readAll]
  by_cases h : pending = []
  · rw [if_pos h, h, List.append_nil]
  · rw [if_neg h, readAll_eq, List.append_assoc, List.take_append_drop]
termination_by pending.length
decreasing_by
  have : pending.length ≠ 0 := fun e => h (List.eq_nil_of_length_eq_zero e)
  simp only [List.length_drop]
  omega

/-! The claims. -/

/-- C3: for every stream handle not present in the session's send-stream
map, `send(handle, data)` returns success for every payload and performs
no chunk write, no flush and no finish signal — the session state is
returned unchanged. -/
theorem send_unknown_handle_noop (conn : QuicConnection) (streamId : Nat)
    (data : List Nat) (h : mapLookup conn.sendStreams streamId = none) :
    conn.send streamId data = (conn, Except.ok ()) := by
  unfold QuicConnection.send
  rw [h]

/-- Witness for C3: sending on the never-allocated handle 5 of a fresh
session succeeds and changes nothing. -/
theorem send_unknown_handle_noop_witness :
    (QuicConnection.new sampleRawConn).send 5 [1, 2, 3]
      = (QuicConnection.new sampleRawConn, Except.ok ()) :=
  send_unknown_handle_noop (QuicConnection.new sampleRawConn) 5 [1, 2, 3] rfl

/-- C4: for every stream handle not present in the session's
receive-stream map, `receive(handle)` returns success with an empty byte
sequence, never an error, and reads nothing — the session state is
returned unchanged. -/
theorem receive_unknown_handle_empty (conn : QuicConnection) (streamId : Nat)
    (h : mapLookup conn.recvStreams streamId = none) :
    conn.receive streamId = (conn, Except.ok []) := by
  unfold QuicConnection.receive
  rw [h]

/-- Witness for C4: receiving on the never-allocated handle 9 of a fresh
session yields the empty byte sequence and changes nothing. -/
theorem receive_unknown_handle_empty_witness :
    (QuicConnection.new sampleRawConn).receive 9
      = (QuicConnection.new sampleRawConn, Except.ok []) :=
  receive_unknown_handle_empty (QuicConnection.new sampleRawConn) 9 rfl

/-- C10: if the underlying transport refuses stream creation,
`open_bi_stream` and `accept_bi_stream` return the error with the
session state fully unchanged (counter not incremented, no map entry);
if it grants the stream pair, the returned handle is the old counter
value, the counter is incremented by one, and both halves sit in their
maps under exactly that handle. -/
theorem open_accept_error_atomicity (conn : QuicConnection)
    (transport : Except TransportError (SendStream × RecvStream)) :
    (∀ e, transport = .error e →
      conn.open_bi_stream transport = (conn, .error e) ∧
      conn.accept_bi_stream transport = (conn, .error e)) ∧
    (∀ ss rs, transport = .ok (ss, rs) →
      (conn.open_bi_stream transport).2 = .ok conn.streamIdCounter ∧
      (conn.open_bi_stream transport).1.streamIdCounter = conn.streamIdCounter + 1 ∧
      mapLookup (conn.open_bi_stream transport).1.sendStreams conn.streamIdCounter
        = some ss ∧
      mapLookup (conn.open_bi_stream transport).1.recvStreams conn.streamIdCounter
        = some rs ∧
      (conn.accept_bi_stream transport).2 = .ok conn.streamIdCounter ∧
      (conn.accept_bi_stream transport).1.streamIdCounter = conn.streamIdCounter + 1 ∧
      mapLookup (conn.accept_bi_stream transport).1.sendStreams conn.streamIdCounter
        = some ss ∧
      mapLookup (conn.accept_bi_stream transport).1.recvStreams conn.streamIdCounter
        = some rs) := by
  constructor
  · intro e he
    subst he
    exact ⟨rfl, rfl⟩
  · intro ss rs ht
    subst ht
    refine ⟨rfl, rfl, ?_, ?_, rfl, rfl, ?_, ?_⟩ <;>
      exact mapLookup_insert_self _ _ _

/-- Witness for C10: on a fresh session whose transport refuses the
stream, both calls surface the error and leave the session untouched. -/
theorem open_accept_error_atomicity_witness :
    (QuicConnection.new sampleRawConn).open_bi_stream (.error 4)
        = (QuicConnection.new sampleRawConn, .error 4) ∧
    (QuicConnection.new sampleRawConn).accept_bi_stream (.error 4)
        = (QuicConnection.new sampleRawConn, .error 4) :=
  (open_accept_error_atomicity (QuicConnection.new sampleRawConn) (.error 4)).1 4 rfl

/-- C1: a `send` on an open (healthy) handle succeeds, appends to the
stream exactly the successive at-most-1024-byte chunks of the payload in
order, and the peer's `receive` on the stream carrying those chunks
returns exactly the payload — for every payload, including the empty
one, regardless of its size relative to 1024. -/
theorem send_receive_roundtrip
    (connS connR : QuicConnection) (hs hr : Nat)
    (s : SendStream) (r : RecvStream) (data : List Nat)
    (hS : mapLookup connS.sendStreams hs = some s) (hsOk : s.broken = false)
    (hR : mapLookup connR.recvStreams hr = some r) (hrOk : r.broken = false)
    (hwire : r.pending = (sendChunks data).flatten) :
    (connS.send hs data).2 = Except.ok () ∧
    mapLookup (connS.send hs data).1.sendStreams hs
      = some { s with written := s.written ++ sendChunks data,
                      flushed := true, finished := true } ∧
    (∀ c ∈ sendChunks data, 0 < c.length ∧ c.length ≤ 1024) ∧
    (connR.receive hr).2 = Except.ok data := by
  unfold QuicConnection.send QuicConnection.receive
  rw [hS, hR]
  dsimp only
  rw [hsOk, hrOk]
  rw [if_neg Bool.false_ne_true, if_neg Bool.false_ne_true]
  refine ⟨rfl, mapLookup_insert_self _ _ _, sendLoop_chunk_size data 0, ?_⟩
  dsimp only
  rw [readAll_eq, List.nil_append, hwire, sendChunks_join]

/-- Witness for C1: a session sends `[10, 20, 30]` on handle 0 and the
peer session, whose stream 0 carries the chunks that send produced,
receives exactly `[10, 20, 30]`. -/
theorem send_receive_roundtrip_witness :
    ((sampleConn ((sendChunks [10, 20, 30]).flatten)).send 0 [10, 20, 30]).2
        = Except.ok () ∧
    ((sampleConn ((sendChunks [10, 20, 30]).flatten)).receive 0).2
        = Except.ok [10, 20, 30] := by
  have h := send_receive_roundtrip
    (sampleConn ((sendChunks [10, 20, 30]).flatten))
    (sampleConn ((sendChunks [10, 20, 30]).flatten)) 0 0
    freshSendStream (freshRecvStream ((sendChunks [10, 20, 30]).flatten))
    [10, 20, 30] rfl rfl rfl rfl rfl
  exact ⟨h.1, h.2.2.2⟩

theorem runOps_handles (ops : List StreamOp) (conn : QuicConnection) :
    (runOps conn ops).2 = List.range' conn.streamIdCounter (successCount ops) := by
  induction ops generalizing conn with
  | nil => rfl
  | cons op rest ih =>
    cases op with
    | openBi t =>
      cases t with
      | error e =>
        show ([] ++ (runOps conn rest).2 : List Nat) = _
        rw [List.nil_append, ih]
        simp [successCount, opSucceeds]
      | ok pair =>
        obtain ⟨ss, rs⟩ := pair
        show (conn.streamIdCounter ::
            (runOps { conn with
              sendStreams := mapInsert conn.sendStreams conn.streamIdCounter ss,
              recvStreams := mapInsert conn.recvStreams conn.streamIdCounter rs,
              streamIdCounter := conn.streamIdCounter + 1 } rest).2) = _
        rw [ih]
        have hn : successCount (StreamOp.openBi (.ok (ss, rs)) :: rest)
            = successCount rest + 1 := by
          simp [successCount, opSucceeds]
        rw [hn, List.range'_succ]
    | acceptBi t =>
      cases t with
      | error e =>
        show ([] ++ (runOps conn rest).2 : List Nat) = _
        rw [List.nil_append, ih]
        simp [successCount, opSucceeds]
      | ok pair =>
        obtain ⟨ss, rs⟩ := pair
        show (conn.streamIdCounter ::
            (runOps { conn with
              sendStreams := mapInsert conn.sendStreams conn.streamIdCounter ss,
              recvStreams := mapInsert conn.recvStreams conn.streamIdCounter rs,
              streamIdCounter := conn.streamIdCounter + 1 } rest).2) = _
        rw [ih]
        have hn : successCount (StreamOp.acceptBi (.ok (ss, rs)) :: rest)
            = successCount rest + 1 := by
          simp [successCount, opSucceeds]
        rw [hn, List.range'_succ]

/-- C2: for every sequence of `open_bi_stream`/`accept_bi_stream` calls on
one fresh session, in any interleaving, the handles returned by the N
successful calls are exactly 0, 1, ..., N-1 in call order — pairwise
distinct and contiguous from 0 — because both operations draw from the
one counter that starts at 0 and is incremented by exactly one per
successful call. -/
theorem stream_handles_contiguous (c : RawConn) (ops : List StreamOp) :
    (runOps (QuicConnection.new c) ops).2 = List.range (successCount ops) ∧
    ((runOps (QuicConnection.new c) ops).2).Nodup := by
  have h := runOps_handles ops (QuicConnection.new c)
  constructor
  · rw [h, List.range_eq_range']
    exact rfl
  · rw [h]
    exact List.nodup_range' _ _ _ (by omega)

/-- Witness for C2: three calls — open (granted), accept (refused by the
transport), accept (granted) — on a fresh session return handles 0 and 1
for the two successful calls. -/
theorem stream_handles_contiguous_witness :
    (runOps (QuicConnection.new sampleRawConn)
        [StreamOp.openBi (.ok (freshSendStream, freshRecvStream [])),
         StreamOp.acceptBi (.error 1),
         StreamOp.acceptBi (.ok (freshSendStream, freshRecvStream []))]).2
      = List.range (successCount
        [StreamOp.openBi (.ok (freshSendStream, freshRecvStream [])),
         StreamOp.acceptBi (.error 1),
         StreamOp.acceptBi (.ok (freshSendStream, freshRecvStream []))]) ∧
    ((runOps (QuicConnection.new sampleRawConn)
        [StreamOp.openBi (.ok (freshSendStream, freshRecvStream [])),
         StreamOp.acceptBi (.error 1),
         StreamOp.acceptBi (.ok (freshSendStream, freshRecvStream []))]).2).Nodup :=
  stream_handles_contiguous sampleRawConn
    [StreamOp.openBi (.ok (freshSendStream, freshRecvStream [])),
     StreamOp.acceptBi (.error 1),
     StreamOp.acceptBi (.ok (freshSendStream, freshRecvStream []))]

theorem collectCerts_error_iff (l : List (Except Unit (List Nat))) :
    collectCerts l = Except.error () ↔ Except.error () ∈ l := by
  induction l with
  | nil => simp [collectCerts]
  | cons i rest ih =>
    cases i with
    | error e =>
      cases e
      simp [collectCerts]
    | ok c =>
      cases hrest : collectCerts rest with
      | ok cs => simp [collectCerts, hrest, ← ih]
      | error e =>
        cases e
        simp [collectCerts, hrest, ← ih]

/-- C5 counterexample: a `.pem` file whose content holds zero PEM
certificate sections (for instance an empty file) loads successfully as
an empty certificate chain — it does not fail with a parse error, contrary
to the claim. -/
theorem load_certs_zero_blocks_ok :
    load_certs { ext := some "pem", content := [], pemItems := [] }
      = Except.ok [] := rfl

/-- C5 amended: loading from a file whose extension is `der` yields the
whole content as a single raw certificate, never touching the PEM
parser; loading from any other extension parses the content as a
sequence of PEM certificates and fails with a parse error exactly when
some PEM section is malformed — zero sections yield the empty chain
successfully. -/
theorem load_certs_spec (f : CertFile) :
    (f.ext = some "der" → load_certs f = Except.ok [f.content]) ∧
    (f.ext ≠ some "der" →
      ((load_certs f = Except.error CertError.invalidPem)
          ↔ Except.error () ∈ f.pemItems) ∧
      (f.pemItems = [] → load_certs f = Except.ok [])) := by
  constructor
  · intro h
    unfold load_certs
    rw [if_pos h]
  · intro h
    unfold load_certs
    rw [if_neg h]
    constructor
    · rw [← collectCerts_error_iff]
      cases hc : collectCerts f.pemItems with
      | ok cs => simp [hc]
      | error e =>
        cases e
        simp [hc]
    · intro hnil
      rw [hnil]
      rfl

/-- Witness for the amended C5: a `.der` file loads as the single raw
certificate even when its byte content would yield a malformed PEM
section. -/
theorem load_certs_spec_witness :
    load_certs { ext := some "der", content := [9, 9], pemItems := [.error ()] }
      = Except.ok [[9, 9]] :=
  (load_certs_spec
    { ext := some "der", content := [9, 9], pemItems := [.error ()] }).1 rfl

/-- C6 counterexample: the endpoint factory defines the ALPN identifier
`hq-29` but the insecure client configuration it produces does not carry
it — its ALPN list is empty, so the handshake advertises no application
protocol. -/
theorem alpn_not_advertised_cex :
    ALPN_QUIC_HTTP = [[104, 113, 45, 50, 57]] ∧
    [104, 113, 45, 50, 57] ∉ insecure_client_config.alpnProtocols := by
  constructor
  · rfl
  · decide

/-- C6 amended: the endpoint factory defines the single fixed ALPN
identifier `hq-29` (`ALPN_QUIC_HTTP`) but never applies it — every
client configuration (pinned, native-trust, insecure) and every server
configuration (certificate-backed, self-signed) it produces has an empty
ALPN list and advertises no application protocol. -/
theorem alpn_defined_never_applied (serverCerts : List CertInput)
    (nativeCerts : List (List Nat))
    (loaded : Except CertError (List (List Nat) × List Nat))
    (pair : List (List Nat) × List Nat) :
    ALPN_QUIC_HTTP = [[104, 113, 45, 50, 57]] ∧
    (∀ cfg, configure_client serverCerts = Except.ok cfg →
      cfg.alpnProtocols = []) ∧
    (native_client_config nativeCerts).alpnProtocols = [] ∧
    insecure_client_config.alpnProtocols = [] ∧
    (∀ cfg, configure_server loaded = Except.ok cfg → cfg.alpnProtocols = []) ∧
    (configure_self_signed_server pair).alpnProtocols = [] := by
  refine ⟨rfl, ?_, rfl, rfl, ?_, rfl⟩
  · intro cfg h
    unfold configure_client at h
    by_cases hv : serverCerts.all (fun c => c.valid)
    · rw [if_pos hv] at h
      cases h
      rfl
    · rw [if_neg hv] at h
      exact Except.noConfusion h
  · intro cfg h
    cases loaded with
    | error e => exact Except.noConfusion h
    | ok p =>
      obtain ⟨chain, key⟩ := p
      cases h
      rfl

/-- Witness for the amended C6: the pinned-certificate client built from
one valid certificate, and the server built from a loaded chain/key,
both end up with an empty ALPN list. -/
theorem alpn_defined_never_applied_witness :
    ({ rootCerts := [[5]], skipVerify := false, alpnProtocols := [] } :
        ClientConfig).alpnProtocols = [] ∧
    ({ certChain := [[1]], keyDer := [2], alpnProtocols := [],
        transport := { maxConcurrentUniStreams := 0 } } :
        ServerConfig).alpnProtocols = [] :=
  ⟨(alpn_defined_never_applied [{ der := [5], valid := true }] []
      (.ok ([[1]], [2])) ([], [])).2.1 _ rfl,
   (alpn_defined_never_applied [{ der := [5], valid := true }] []
      (.ok ([[1]], [2])) ([], [])).2.2.2.2.1 _ rfl⟩

/-- C7: every server configuration the endpoint factory produces — from a
loaded certificate as well as self-signed — sets the maximum number of
concurrent unidirectional streams to 0. -/
theorem servers_disable_uni_streams
    (loaded : Except CertError (List (List Nat) × List Nat))
    (pair : List (List Nat) × List Nat) :
    (∀ cfg, configure_server loaded = Except.ok cfg →
      cfg.transport.maxConcurrentUniStreams = 0) ∧
    (configure_self_signed_server pair).transport.maxConcurrentUniStreams = 0 := by
  constructor
  · intro cfg h
    cases loaded with
    | error e => exact Except.noConfusion h
    | ok p =>
      obtain ⟨chain, key⟩ := p
      cases h
      rfl
  · rfl

/-- Witness for C7: the certificate-backed server built from a concrete
chain/key has its unidirectional stream limit at 0. -/
theorem servers_disable_uni_streams_witness :
    ({ certChain := [[1]], keyDer := [2], alpnProtocols := [],
        transport := { maxConcurrentUniStreams := 0 } } :
        ServerConfig).transport.maxConcurrentUniStreams = 0 :=
  (servers_disable_uni_streams (.ok ([[1]], [2])) ([], [])).1 _ rfl

/-- C8: the facade's `accept` returns none exactly when the queue is
closed or completing the popped handshake fails, and in both cases it
returns the identical result with the address table untouched; on
success the new session is registered under the peer's remote
address. -/
theorem accept_failure_behavior (sock : QuicSocket)
    (item : Option (Except TransportError RawConn)) :
    ((sock.accept item).2 = none ↔ item = none ∨ ∃ e, item = some (.error e)) ∧
    (item = none → sock.accept item = (sock, none)) ∧
    (∀ e, item = some (.error e) → sock.accept item = (sock, none)) ∧
    (∀ c, item = some (.ok c) →
      sock.accept item
        = ({ sock with connections :=
              mapInsert sock.connections c.remoteAddr (QuicConnection.new c) },
           some (QuicConnection.new c))) := by
  refine ⟨?_, ?_, ?_, ?_⟩
  · cases item with
    | none => simp [QuicSocket.accept]
    | some r =>
      cases r with
      | error e => simp [QuicSocket.accept]
      | ok c => simp [QuicSocket.accept]
  · intro h
    subst h
    rfl
  · intro e h
    subst h
    rfl
  · intro c h
    subst h
    rfl

/-- Witness for C8: on a concrete facade, a failed handshake makes
`accept` return none with the facade unchanged. -/
theorem accept_failure_behavior_witness :
    sampleSocket.accept (some (.error 2)) = (sampleSocket, none) :=
  (accept_failure_behavior sampleSocket (some (.error 2))).2.2.1 2 rfl

/-- C9: a successful `connect` registers the new session under the target
address, replacing any prior entry without closing it and leaving every
other address's entry unchanged (and a successful `accept` likewise
closes nothing); `close_connection(addr)` removes and closes exactly the
entry for `addr` when present and is a complete no-op when absent. -/
theorem connect_overwrite_close_spec (sock : QuicSocket) (addr a' : Addr)
    (c : RawConn) :
    ((sock.connect addr (.ok c)).2 = Except.ok (QuicConnection.new c)) ∧
    (mapLookup (sock.connect addr (.ok c)).1.connections addr
        = some (QuicConnection.new c)) ∧
    (a' ≠ addr → mapLookup (sock.connect addr (.ok c)).1.connections a'
        = mapLookup sock.connections a') ∧
    ((sock.connect addr (.ok c)).1.closedConns = sock.closedConns) ∧
    ((sock.accept (some (.ok c))).1.closedConns = sock.closedConns) ∧
    (∀ q, mapLookup sock.connections addr = some q →
      sock.close_connection addr
        = { connections := mapRemove sock.connections addr,
            closedConns := q.connection.connId :: sock.closedConns } ∧
      mapLookup (sock.close_connection addr).connections addr = none ∧
      (a' ≠ addr → mapLookup (sock.close_connection addr).connections a'
          = mapLookup sock.connections a')) ∧
    (mapLookup sock.connections addr = none → sock.close_connection addr = sock) := by
  refine ⟨rfl, mapLookup_insert_self _ _ _, ?_, rfl, rfl, ?_, ?_⟩
  · intro h
    exact mapLookup_insert_ne _ _ _ _ h
  · intro q hq
    have hcl : sock.close_connection addr
        = { connections := mapRemove sock.connections addr,
            closedConns := q.connection.connId :: sock.closedConns } := by
      unfold QuicSocket.close_connection
      rw [hq]
    refine ⟨hcl, ?_, ?_⟩
    · rw [hcl]
      exact mapLookup_remove_self _ _
    · intro h
      rw [hcl]
      exact mapLookup_remove_ne _ _ _ h
  · intro h
    unfold QuicSocket.close_connection
    rw [h]

/-- Witness for C9: on a concrete facade holding one session for address
3, connecting again to address 3 closes nothing, and `close_connection 3`
removes the entry while logging exactly that connection's close. -/
theorem connect_overwrite_close_spec_witness :
    (sampleSocket.connect 3 (.ok sampleRawConn)).1.closedConns = [] ∧
    sampleSocket.close_connection 3
      = { connections := mapRemove sampleSocket.connections 3,
          closedConns := [7] } := by
  have h := connect_overwrite_close_spec sampleSocket 3 0 sampleRawConn
  exact ⟨h.2.2.2.1, (h.2.2.2.2.2.1 (QuicConnection.new sampleRawConn) rfl).1⟩

end QuicSock
